import Mathlib

/-!
Terminal raw-mode controller of tcell (`tscreen_linux.go`).

A shallow embedding of `termioInit`, `termioFini` and `getWinSize`.

* The kernel-held line discipline of `/dev/tty` is a `termiosPrivate` value in `World`.
* Every call that leaves the program (open, ioctl, close, channel receive) takes its outcome
  from an `Env` record, and is logged as an `Event`, so that a run yields its trace.
* The flag constants of package `syscall` are a `Consts` record; `linux` holds the values
  of linux/amd64.
-/

namespace Tcell

/-! ## Data model -/

/-- The constants of package `syscall` that `termioInit` names. -/
structure Consts where
  IGNBRK : Nat
  BRKINT : Nat
  PARMRK : Nat
  ISTRIP : Nat
  INLCR : Nat
  IGNCR : Nat
  ICRNL : Nat
  IXON : Nat
  OPOST : Nat
  ECHO : Nat
  ECHONL : Nat
  ICANON : Nat
  ISIG : Nat
  IEXTEN : Nat
  CSIZE : Nat
  PARENB : Nat
  CS8 : Nat
  VMIN : Fin 32
  VTIME : Fin 32

/-- Values of the constants in `syscall` for linux/amd64 (`zerrors_linux_amd64.go`). -/
def linux : Consts where
  IGNBRK := 0x1
  BRKINT := 0x2
  PARMRK := 0x8
  ISTRIP := 0x20
  INLCR := 0x40
  IGNCR := 0x80
  ICRNL := 0x100
  IXON := 0x400
  OPOST := 0x1
  ECHO := 0x8
  ECHONL := 0x40
  ICANON := 0x2
  ISIG := 0x1
  IEXTEN := 0x8000
  CSIZE := 0x30
  PARENB := 0x100
  CS8 := 0x30
  VMIN := 6
  VTIME := 5

/-- The type `termiosPrivate`, which is `syscall.Termios`: four `uint32` flag words, the
line byte, the control characters `Cc [32]uint8`, and the two speeds. -/
structure termiosPrivate where
  Iflag : Nat
  Oflag : Nat
  Cflag : Nat
  Lflag : Nat
  Line : Nat
  Cc : Fin 32 → Nat
  Ispeed : Nat
  Ospeed : Nat
  deriving DecidableEq

/-- The value of `&termiosPrivate{}`: every field zero. -/
def termiosPrivate.zero : termiosPrivate :=
  ⟨0, 0, 0, 0, 0, fun _ => 0, 0, 0⟩

/-- A Go `error` value that is not nil. -/
inductive GoError where
  | errno (n : Nat)
  | pathError (n : Nat)
  | errClosed
  | wrapf (cause : GoError) (msg : String)
  deriving DecidableEq

/-- An `*os.File` that is not nil; `closed` records that `Close` has run on it. -/
structure OsFile where
  closed : Bool
  deriving DecidableEq

/-- The fields of `tScreen` that this file reads or writes. -/
structure tScreen where
  in_ : Option OsFile
  out : Option OsFile
  tiosp : Option termiosPrivate
  baud : Int
  deriving DecidableEq

/-- The state outside the process: the configuration the kernel holds for `/dev/tty`. -/
structure World where
  tty : termiosPrivate
  deriving DecidableEq

/-- Outcomes of the calls that leave the process during one run.
`none` resp. errno `0` is success. `dim` is the kernel winsize
`[ws_row, ws_col, ws_xpixel, ws_ypixel]`; `drained` tells whether the
receive on `t.indoneq` ever completes. -/
structure Env where
  openIn : Option GoError
  openOut : Option GoError
  tcgets : Nat
  tcsets : Nat
  winsz : Nat
  dim : Fin 4 → Fin 65536
  closeIn : Option GoError
  closeOut : Option GoError
  drained : Bool

/-- One observable step of a run. -/
inductive Event where
  | openIn (ok : Bool)
  | openOut (ok : Bool)
  | tcgets (errno : Nat)
  | tcsets (arg : Option termiosPrivate) (errno : Nat)
  | tiocgwinsz (errno : Nat)
  | notify
  | stop
  | recvIndoneq
  | resize (w h : Int)
  | closeIn (ok : Bool)
  | closeOut (ok : Bool)
  deriving DecidableEq

/-- What one call leaves behind: the session, the world, the events in order, and the
returned `error` (`some none` is a nil return; `none` means the call never returns). -/
structure Outcome where
  t : tScreen
  world : World
  trace : List Event
  ret : Option (Option GoError)
  deriving DecidableEq

/-! ## Library calls -/

/-- Errno `EBADF`, the answer to an ioctl on the descriptor `^uintptr(0)`. -/
def EBADF : Nat := 9

/-- Errno `EFAULT`, the answer to an ioctl whose argument pointer is nil. -/
def EFAULT : Nat := 14

/-- Method `f.Close()`: a file that was closed before reports `os.ErrClosed` and no system
call is made; otherwise the file becomes closed and the result of close(2) is returned. -/
def OsFile.Close (f : OsFile) (sys : Option GoError) : OsFile × Option GoError :=
  if f.closed then (f, some GoError.errClosed) else (⟨true⟩, sys)

/-- Whether `f.Fd()` is a live descriptor: `Fd` gives `^uintptr(0)` on a nil or closed file. -/
def fdValid (f : Option OsFile) : Bool :=
  match f with
  | some g => !g.closed
  | none => false

/-- Errno of `syscall.Syscall6(SYS_IOCTL, fd, ...)`: `EBADF` on a dead descriptor,
otherwise what the kernel answers. -/
def sysIoctl (valid : Bool) (errno : Nat) : Nat :=
  if valid then errno else EBADF

/-- The ioctl `TCSETS` with argument `p`: on success the device takes the configuration
`p` points to; a failed call leaves the device as it was. -/
def ioctlTCSETS (valid : Bool) (errno : Nat) (p : Option termiosPrivate) (w : World) :
    Nat × World :=
  match p with
  | none => (if valid then EFAULT else EBADF, w)
  | some cfg =>
    if sysIoctl valid errno = 0 then (0, { w with tty := cfg }) else (sysIoctl valid errno, w)

/-! ## `tscreen_linux.go` -/

/-- Go's bit clear `x &^ m` on unsigned words: the bits of `x` that are set in `m` are
flipped off, the others stay (see `testBit_bitClear`). -/
def bitClear (x m : Nat) : Nat :=
  x ^^^ (x &&& m)

/-- The local `newtios` of `termioInit` when it is handed to `TCSETS`
(source lines 56 to 71), as a function of `*t.tiosp`. -/
def newtios (k : Consts) (tiosp : termiosPrivate) : termiosPrivate :=
  let n := tiosp
  let n := { n with
    Iflag := bitClear n.Iflag
      (k.IGNBRK ||| k.BRKINT ||| k.PARMRK ||| k.ISTRIP ||| k.INLCR ||| k.IGNCR |||
        k.ICRNL ||| k.IXON) }
  let n := { n with Oflag := bitClear n.Oflag k.OPOST }
  let n := { n with
    Lflag := bitClear n.Lflag (k.ECHO ||| k.ECHONL ||| k.ICANON ||| k.ISIG ||| k.IEXTEN) }
  let n := { n with Cflag := bitClear n.Cflag (k.CSIZE ||| k.PARENB) }
  let n := { n with Cflag := n.Cflag ||| k.CS8 }
  let n := { n with Cc := Function.update n.Cc k.VMIN 1 }
  let n := { n with Cc := Function.update n.Cc k.VTIME 0 }
  n

/-- Function `getWinSize`: the ioctl `TIOCGWINSZ` on `t.out.Fd()` into `dim`; returns
`(int(dim[1]), int(dim[0]), nil)` or `(-1, -1, err)`. The event logged is the ioctl. -/
def getWinSize (env : Env) (t : tScreen) : (Int × Int × Option GoError) × List Event :=
  let err := sysIoctl (fdValid t.out) env.winsz
  if err ≠ 0 then
    ((-1, -1, some (GoError.errno err)), [Event.tiocgwinsz err])
  else
    ((((env.dim 1).val : Int), ((env.dim 0).val : Int), none), [Event.tiocgwinsz err])

/-- Second half of the label `failed:` of `termioInit` (source lines 98 to 104). -/
def failedOut (env : Env) (t : tScreen) (w : World) (tr : List Event)
    (e : Option GoError) : Outcome :=
  match t.out with
  | some f =>
    match f.Close env.closeOut with
    | (f1, some err) =>
      ⟨{ t with out := some f1 }, w, tr ++ [Event.closeOut false],
        some (some (GoError.wrapf err "in tScreen_linux.termioInit() t.out.Close()"))⟩
    | (f1, none) => ⟨{ t with out := some f1 }, w, tr ++ [Event.closeOut true], some e⟩
  | none => ⟨t, w, tr, some e⟩

/-- The label `failed:` of `termioInit` (source lines 91 to 104). -/
def failed (env : Env) (t : tScreen) (w : World) (tr : List Event)
    (e : Option GoError) : Outcome :=
  match t.in_ with
  | some f =>
    match f.Close env.closeIn with
    | (f1, some err) =>
      ⟨{ t with in_ := some f1 }, w, tr ++ [Event.closeIn false],
        some (some (GoError.wrapf err "in tScreen_linux.termioInit() t.in.Close()"))⟩
    | (f1, none) => failedOut env { t with in_ := some f1 } w (tr ++ [Event.closeIn true]) e
  | none => failedOut env t w tr e

/-- Function `termioInit` (source lines 30 to 105). Each `goto failed` is a call of
`failed` with the session, the world and the error as they are at the jump. -/
def termioInit (k : Consts) (env : Env) (t0 : tScreen) (w : World) : Outcome :=
  let t := { t0 with tiosp := some termiosPrivate.zero }
  match env.openIn with
  | some e => failed env { t with in_ := none } w [Event.openIn false] (some e)
  | none =>
    let t := { t with in_ := some ⟨false⟩ }
    match env.openOut with
    | some e =>
      failed env { t with out := none } w [Event.openIn true, Event.openOut false] (some e)
    | none =>
      let t := { t with out := some ⟨false⟩ }
      let tr := [Event.openIn true, Event.openOut true]
      let e1 := sysIoctl (fdValid t.out) env.tcgets
      if e1 ≠ 0 then
        failed env t w (tr ++ [Event.tcgets e1]) (some (GoError.errno e1))
      else
        let t := { t with tiosp := some w.tty }
        let tr := tr ++ [Event.tcgets e1]
        let t := { t with baud := (w.tty.Ospeed : Int) }
        let n := newtios k w.tty
        let r := ioctlTCSETS (fdValid t.out) env.tcsets (some n) w
        let tr := tr ++ [Event.tcsets (some n) r.1]
        if r.1 ≠ 0 then
          failed env t r.2 tr (some (GoError.errno r.1))
        else
          let tr := tr ++ [Event.notify]
          let g := getWinSize env t
          let tr := tr ++ g.2
          if g.1.2.2 = none ∧ g.1.1 ≠ 0 ∧ g.1.2.1 ≠ 0 then
            ⟨t, r.2, tr ++ [Event.resize g.1.1 g.1.2.1], some none⟩
          else
            ⟨t, r.2, tr, some none⟩

/-- Closing `t.in` at the end of `termioFini` (source lines 124 to 131). -/
def finiIn (env : Env) (t : tScreen) (w : World) (tr : List Event) : Outcome :=
  match t.in_ with
  | some f =>
    match f.Close env.closeIn with
    | (f1, some err) =>
      ⟨{ t with in_ := some f1 }, w, tr ++ [Event.closeIn false],
        some (some (GoError.wrapf err "in tScreen_linux.termioFini() t.in.Close()"))⟩
    | (f1, none) => ⟨{ t with in_ := some f1 }, w, tr ++ [Event.closeIn true], some none⟩
  | none => ⟨t, w, tr, some none⟩

/-- Function `termioFini` (source lines 107 to 132). When nothing ever arrives on
`t.indoneq` the call stays in the receive and does not return. -/
def termioFini (env : Env) (t : tScreen) (w : World) : Outcome :=
  let tr := [Event.stop]
  if env.drained = false then ⟨t, w, tr, none⟩
  else
    let tr := tr ++ [Event.recvIndoneq]
    match t.out with
    | some f =>
      let r := ioctlTCSETS (fdValid t.out) env.tcsets t.tiosp w
      let tr := tr ++ [Event.tcsets t.tiosp r.1]
      match f.Close env.closeOut with
      | (f1, some err) =>
        ⟨{ t with out := some f1 }, r.2, tr ++ [Event.closeOut false],
          some (some (GoError.wrapf err "in tScreen_linux.termioFini() t.out.Close()"))⟩
      | (f1, none) => finiIn env { t with out := some f1 } r.2 (tr ++ [Event.closeOut true])
    | none => finiIn env t w tr

/-! ## Reading a trace -/

/-- The event is a `TCSETS` ioctl. -/
def Event.isTcsets : Event → Bool
  | Event.tcsets _ _ => true
  | _ => false

/-- The event is a `Close` of one of the two handles. -/
def Event.isClose : Event → Bool
  | Event.closeIn _ => true
  | Event.closeOut _ => true
  | _ => false

/-- The event is the call `t.cells.Resize`. -/
def Event.isResize : Event → Bool
  | Event.resize _ _ => true
  | _ => false

/-- Place of a teardown step in the order revoke, receive, restore, close write handle,
close read handle; `5` for an event that is no teardown step. -/
def Event.finiRank : Event → Nat
  | Event.stop => 0
  | Event.recvIndoneq => 1
  | Event.tcsets _ _ => 2
  | Event.closeOut _ => 3
  | Event.closeIn _ => 4
  | _ => 5

/-! ## Sample runs -/

/-- A configuration as a shell leaves it: cooked mode with echo, 38400 baud. -/
def cooked : termiosPrivate :=
  ⟨0x4500, 0x5, 0xbf, 0x8a3b, 0, fun i => if i.val = 6 then 4 else if i.val = 5 then 7 else 0,
    15, 15⟩

/-- A session on which nothing has run yet. -/
def fresh : tScreen := ⟨none, none, none, 0⟩

/-- An environment in which every call succeeds; the window is 80 columns by 24 rows. -/
def allOk : Env :=
  ⟨none, none, 0, 0, 0, fun i => if i.val = 0 then 24 else if i.val = 1 then 80 else 0,
    none, none, true⟩

/-- Every call succeeds but the `TCSETS` ioctl, which answers `EIO`. -/
def setFails : Env := { allOk with tcsets := 5 }

/-- Both opens succeed, `TCGETS` answers `ENOTTY`, and closing `t.in` fails with `EIO`. -/
def getFailsCloseInFails : Env :=
  { allOk with tcgets := 25, closeIn := some (GoError.pathError 5) }

/-- Every call succeeds but closing `t.out`, which fails with `EIO`. -/
def closeOutFails : Env := { allOk with closeOut := some (GoError.pathError 5) }


/-! ## Bit level lemmas -/

theorem testBit_bitClear (x m i : Nat) :
    (bitClear x m).testBit i = (x.testBit i && !m.testBit i) := by
  unfold bitClear
  rw [Nat.testBit_xor, Nat.testBit_and]
  cases x.testBit i <;> cases m.testBit i <;> rfl

theorem bitClear_eq_ldiff (x m : Nat) : bitClear x m = Nat.ldiff x m := by
  apply Nat.eq_of_testBit_eq
  intro i
  rw [testBit_bitClear, Nat.testBit_ldiff]

/-- A bit of the cleared mask is off in the result. -/
theorem bitClear_and_of_sub (x m b : Nat) (h : b &&& m = b) : bitClear x m &&& b = 0 := by
  apply Nat.eq_of_testBit_eq
  intro i
  have hb := congrArg (fun n => n.testBit i) h
  simp only [Nat.testBit_and] at hb
  rw [Nat.testBit_and, testBit_bitClear, Nat.zero_testBit]
  cases hx : x.testBit i <;> cases hm : m.testBit i <;> cases hbi : b.testBit i <;> simp_all

theorem bitClear_idem (x m : Nat) : bitClear (bitClear x m) m = bitClear x m := by
  apply Nat.eq_of_testBit_eq
  intro i
  simp only [testBit_bitClear]
  cases x.testBit i <;> cases m.testBit i <;> rfl

theorem bitClear_or_idem (x m v : Nat) :
    bitClear (bitClear x m ||| v) m ||| v = bitClear x m ||| v := by
  apply Nat.eq_of_testBit_eq
  intro i
  simp only [testBit_bitClear, Nat.testBit_or]
  cases x.testBit i <;> cases m.testBit i <;> cases v.testBit i <;> rfl

theorem and_or_self_right (b m : Nat) : b &&& (m ||| b) = b := by
  apply Nat.eq_of_testBit_eq
  intro i
  simp only [Nat.testBit_and, Nat.testBit_or]
  cases b.testBit i <;> cases m.testBit i <;> rfl

theorem and_or_of_left (b m n : Nat) (h : b &&& m = b) : b &&& (m ||| n) = b := by
  apply Nat.eq_of_testBit_eq
  intro i
  have hb := congrArg (fun n => n.testBit i) h
  simp only [Nat.testBit_and] at hb
  simp only [Nat.testBit_and, Nat.testBit_or]
  cases hx : b.testBit i <;> cases hm : m.testBit i <;> cases hn : n.testBit i <;> simp_all

theorem update_update_idem (f : Fin 32 → Nat) (a b : Fin 32) (x y : Nat) :
    Function.update (Function.update (Function.update (Function.update f a x) b y) a x) b y
      = Function.update (Function.update f a x) b y := by
  funext j
  by_cases hb : j = b
  · subst hb; simp
  · by_cases ha : j = a
    · subst ha; simp [Function.update_noteq hb]
    · simp [Function.update_noteq hb, Function.update_noteq ha]

/-! ## The raw configuration -/

theorem newtios_Iflag (k : Consts) (c : termiosPrivate) :
    (newtios k c).Iflag = bitClear c.Iflag
      (k.IGNBRK ||| k.BRKINT ||| k.PARMRK ||| k.ISTRIP ||| k.INLCR ||| k.IGNCR |||
        k.ICRNL ||| k.IXON) := rfl

theorem newtios_Oflag (k : Consts) (c : termiosPrivate) :
    (newtios k c).Oflag = bitClear c.Oflag k.OPOST := rfl

theorem newtios_Lflag (k : Consts) (c : termiosPrivate) :
    (newtios k c).Lflag = bitClear c.Lflag
      (k.ECHO ||| k.ECHONL ||| k.ICANON ||| k.ISIG ||| k.IEXTEN) := rfl

theorem newtios_Cflag (k : Consts) (c : termiosPrivate) :
    (newtios k c).Cflag = bitClear c.Cflag (k.CSIZE ||| k.PARENB) ||| k.CS8 := rfl

theorem newtios_Cc (k : Consts) (c : termiosPrivate) :
    (newtios k c).Cc = Function.update (Function.update c.Cc k.VMIN 1) k.VTIME 0 := rfl

/-- Bits outside the mask survive a bit clear. -/
theorem bitClear_testBit_of_not (x m i : Nat) (h : m.testBit i = false) :
    (bitClear x m).testBit i = x.testBit i := by
  rw [testBit_bitClear, h]; simp

/-- The flag words of `newtios k c`, bit by bit. -/
theorem newtios_flags (k : Consts) (c : termiosPrivate) :
    ((newtios k c).Iflag &&& k.IGNBRK = 0 ∧ (newtios k c).Iflag &&& k.BRKINT = 0 ∧
      (newtios k c).Iflag &&& k.PARMRK = 0 ∧ (newtios k c).Iflag &&& k.ISTRIP = 0 ∧
      (newtios k c).Iflag &&& k.INLCR = 0 ∧ (newtios k c).Iflag &&& k.IGNCR = 0 ∧
      (newtios k c).Iflag &&& k.ICRNL = 0 ∧ (newtios k c).Iflag &&& k.IXON = 0) ∧
    (newtios k c).Oflag &&& k.OPOST = 0 ∧
    ((newtios k c).Lflag &&& k.ECHO = 0 ∧ (newtios k c).Lflag &&& k.ECHONL = 0 ∧
      (newtios k c).Lflag &&& k.ICANON = 0 ∧ (newtios k c).Lflag &&& k.ISIG = 0 ∧
      (newtios k c).Lflag &&& k.IEXTEN = 0) := by
  rw [newtios_Iflag, newtios_Oflag, newtios_Lflag]
  refine ⟨⟨?_, ?_, ?_, ?_, ?_, ?_, ?_, ?_⟩, ?_, ⟨?_, ?_, ?_, ?_, ?_⟩⟩ <;>
  · apply bitClear_and_of_sub
    repeat (first
      | exact Nat.and_self _
      | exact and_or_self_right _ _
      | apply and_or_of_left)

/-- The control word of `newtios k c`, when `CS8` is a value of the `CSIZE` field and
`PARENB` lies outside it. -/
theorem newtios_Cflag_spec (k : Consts) (c : termiosPrivate)
    (hcs : k.CS8 &&& k.CSIZE = k.CS8) (hpar : k.CS8 &&& k.PARENB = 0) :
    (newtios k c).Cflag &&& k.PARENB = 0 ∧ (newtios k c).Cflag &&& k.CSIZE = k.CS8 ∧
    (∀ i, (k.CSIZE ||| k.PARENB).testBit i = false →
      (newtios k c).Cflag.testBit i = c.Cflag.testBit i) := by
  rw [newtios_Cflag]
  have h1 : ∀ i, (k.CS8.testBit i && k.CSIZE.testBit i) = k.CS8.testBit i := fun i => by
    have := congrArg (fun n => n.testBit i) hcs
    simpa only [Nat.testBit_and] using this
  have h2 : ∀ i, (k.CS8.testBit i && k.PARENB.testBit i) = false := fun i => by
    have := congrArg (fun n => n.testBit i) hpar
    simpa only [Nat.testBit_and, Nat.zero_testBit] using this
  refine ⟨?_, ?_, ?_⟩
  · apply Nat.eq_of_testBit_eq
    intro i
    have a := h2 i
    simp only [Nat.testBit_and, Nat.testBit_or, testBit_bitClear, Nat.zero_testBit]
    cases hx : c.Cflag.testBit i <;> cases hs : k.CSIZE.testBit i <;>
      cases hp : k.PARENB.testBit i <;> cases h8 : k.CS8.testBit i <;> simp_all
  · apply Nat.eq_of_testBit_eq
    intro i
    have a := h1 i
    simp only [Nat.testBit_and, Nat.testBit_or, testBit_bitClear]
    cases hx : c.Cflag.testBit i <;> cases hs : k.CSIZE.testBit i <;>
      cases hp : k.PARENB.testBit i <;> cases h8 : k.CS8.testBit i <;> simp_all
  · intro i hi
    have a := h1 i
    simp only [Nat.testBit_or, testBit_bitClear] at hi ⊢
    cases hx : c.Cflag.testBit i <;> cases hs : k.CSIZE.testBit i <;>
      cases hp : k.PARENB.testBit i <;> cases h8 : k.CS8.testBit i <;> simp_all

/-- The control characters of `newtios k c`, when `VMIN` and `VTIME` are two slots. -/
theorem newtios_Cc_spec (k : Consts) (c : termiosPrivate) (hv : k.VMIN ≠ k.VTIME) :
    (newtios k c).Cc k.VMIN = 1 ∧ (newtios k c).Cc k.VTIME = 0 ∧
    (∀ j, j ≠ k.VMIN → j ≠ k.VTIME → (newtios k c).Cc j = c.Cc j) := by
  rw [newtios_Cc]
  refine ⟨?_, ?_, ?_⟩
  · rw [Function.update_noteq hv, Function.update_same]
  · rw [Function.update_same]
  · intro j h1 h2
    rw [Function.update_noteq h2, Function.update_noteq h1]

/-- The run of `termioInit` once both opens and `TCGETS` have succeeded: the original is
stored, and the trace has one `TCSETS`, with argument `newtios k w.tty`. -/
theorem termioInit_captured (k : Consts) (env : Env) (t : tScreen) (w : World)
    (hin : env.openIn = none) (hout : env.openOut = none) (hget : env.tcgets = 0) :
    (termioInit k env t w).trace.filter Event.isTcsets
        = [Event.tcsets (some (newtios k w.tty)) env.tcsets] ∧
      (termioInit k env t w).t.tiosp = some w.tty := by
  by_cases hs : env.tcsets = 0
  · by_cases hw : env.winsz = 0
    · simp only [termioInit, hin, hout, hget, hs, hw, sysIoctl, fdValid, ioctlTCSETS,
        getWinSize]
      split_ifs <;> simp_all [Event.isTcsets, List.filter]
    · simp [termioInit, hin, hout, hget, hs, hw, sysIoctl, fdValid, ioctlTCSETS,
        getWinSize, Event.isTcsets, List.filter]
  · cases hci : env.closeIn <;> cases hco : env.closeOut <;>
      simp [termioInit, hin, hout, hget, hs, hci, hco, sysIoctl, fdValid, ioctlTCSETS,
        failed, failedOut, OsFile.Close, Event.isTcsets, List.filter]

/-- Bit clear and or stay inside 32 bits: no step of `newtios` can overflow a `uint32`. -/
theorem bitClear_lt (x m n : Nat) (h : x < 2 ^ n) : bitClear x m < 2 ^ n := by
  apply Nat.lt_pow_two_of_testBit
  intro i hi
  rw [testBit_bitClear, Nat.testBit_lt_two_pow (lt_of_lt_of_le h (Nat.pow_le_pow_right
    (by decide) hi))]
  rfl

theorem newtios_words_lt (k : Consts) (c : termiosPrivate) (hk : k.CS8 < 2 ^ 32)
    (hi : c.Iflag < 2 ^ 32) (ho : c.Oflag < 2 ^ 32) (hc : c.Cflag < 2 ^ 32)
    (hl : c.Lflag < 2 ^ 32) :
    (newtios k c).Iflag < 2 ^ 32 ∧ (newtios k c).Oflag < 2 ^ 32 ∧
    (newtios k c).Cflag < 2 ^ 32 ∧ (newtios k c).Lflag < 2 ^ 32 := by
  rw [newtios_Iflag, newtios_Oflag, newtios_Cflag, newtios_Lflag]
  exact ⟨bitClear_lt _ _ _ hi, bitClear_lt _ _ _ ho,
    Nat.or_lt_two_pow (bitClear_lt _ _ _ hc) hk, bitClear_lt _ _ _ hl⟩

/-! ## Runs of `termioInit` -/

/-- The label `failed:` closes handles and nothing else: the world stays, the call returns,
the error is not nil, and what is added to the trace are `Close` events. -/
theorem failedOut_spec (env : Env) (t : tScreen) (w : World) (tr : List Event) (e : GoError) :
    (failedOut env t w tr (some e)).world = w ∧
    (∃ e2, (failedOut env t w tr (some e)).ret = some (some e2)) ∧
    (∃ post, (failedOut env t w tr (some e)).trace = tr ++ post ∧
      ∀ ev ∈ post, ev.isClose = true) := by
  unfold failedOut
  rcases ho : t.out with _ | ⟨⟨c⟩⟩
  · exact ⟨rfl, ⟨e, rfl⟩, [], by simp, by simp⟩
  · cases c <;> cases hco : env.closeOut <;>
      simp [OsFile.Close, hco, Event.isClose]

theorem failed_spec (env : Env) (t : tScreen) (w : World) (tr : List Event) (e : GoError) :
    (failed env t w tr (some e)).world = w ∧
    (∃ e2, (failed env t w tr (some e)).ret = some (some e2)) ∧
    (∃ post, (failed env t w tr (some e)).trace = tr ++ post ∧
      ∀ ev ∈ post, ev.isClose = true) := by
  unfold failed
  rcases hi : t.in_ with _ | ⟨⟨c⟩⟩
  · exact failedOut_spec env t w tr e
  · cases c
    · cases hci : env.closeIn
      · simp only [OsFile.Close, hci, Bool.false_eq_true, if_false]
        obtain ⟨h1, h2, post, h3, h4⟩ :=
          failedOut_spec env { t with in_ := some ⟨true⟩ } w (tr ++ [Event.closeIn true]) e
        refine ⟨h1, h2, Event.closeIn true :: post, ?_, ?_⟩
        · rw [h3]; simp
        · intro ev hev
          rcases List.mem_cons.1 hev with h | h
          · rw [h]; rfl
          · exact h4 ev h
      · simp [OsFile.Close, hci, Event.isClose]
    · simp [OsFile.Close, Event.isClose]

/-- A `uint16` converted to `int` is zero only when it was zero. -/
theorem dim_cast_eq_zero (x : Fin 65536) : ((x.val : Int) = 0) ↔ x = 0 := by
  rw [Int.natCast_eq_zero]
  constructor
  · intro h; exact Fin.ext h
  · intro h; rw [h]; rfl

/-- The successful run: both opens and both ioctls succeed. -/
theorem termioInit_success (k : Consts) (env : Env) (t : tScreen) (w : World)
    (hin : env.openIn = none) (hout : env.openOut = none) (hget : env.tcgets = 0)
    (hset : env.tcsets = 0) :
    (termioInit k env t w).t = ⟨some ⟨false⟩, some ⟨false⟩, some w.tty, (w.tty.Ospeed : Int)⟩ ∧
    (termioInit k env t w).world = ⟨newtios k w.tty⟩ ∧
    (termioInit k env t w).ret = some none ∧
    (termioInit k env t w).trace =
      [Event.openIn true, Event.openOut true, Event.tcgets 0,
        Event.tcsets (some (newtios k w.tty)) 0, Event.notify, Event.tiocgwinsz env.winsz] ++
      (if env.winsz = 0 ∧ env.dim 1 ≠ 0 ∧ env.dim 0 ≠ 0 then
        [Event.resize ((env.dim 1).val : Int) ((env.dim 0).val : Int)] else []) := by
  have c1 : ((env.dim 1).val : Int) = 0 ↔ env.dim 1 = 0 := dim_cast_eq_zero _
  have c0 : ((env.dim 0).val : Int) = 0 ↔ env.dim 0 = 0 := dim_cast_eq_zero _
  by_cases hw : env.winsz = 0
  · simp only [termioInit, hin, hout, hget, hset, hw, sysIoctl, fdValid, ioctlTCSETS,
      getWinSize]
    by_cases h1 : env.dim 1 = 0
    · simp [h1]
    · by_cases h0 : env.dim 0 = 0
      · simp [h0]
      · have a1 : ¬ ((env.dim 1).val : Int) = 0 := fun h => h1 (c1.1 h)
        have a0 : ¬ ((env.dim 0).val : Int) = 0 := fun h => h0 (c0.1 h)
        simp [h1, h0, a1, a0]
  · simp [termioInit, hin, hout, hget, hset, hw, sysIoctl, fdValid, ioctlTCSETS, getWinSize]

/-- A failing run, whichever call fails: the world is untouched, an error comes back, and
`TCSETS` is in the trace only as the failed fourth event. -/
theorem termioInit_failure (k : Consts) (env : Env) (t : tScreen) (w : World)
    (h : ¬ (env.openIn = none ∧ env.openOut = none ∧ env.tcgets = 0 ∧ env.tcsets = 0)) :
    (termioInit k env t w).world = w ∧
    (∃ e, (termioInit k env t w).ret = some (some e)) ∧
    (∃ pre post, (termioInit k env t w).trace = pre ++ post ∧
      (∀ ev ∈ post, ev.isClose = true) ∧
      (pre = [Event.openIn false] ∨ pre = [Event.openIn true, Event.openOut false] ∨
        pre = [Event.openIn true, Event.openOut true, Event.tcgets env.tcgets] ∨
        (env.tcsets ≠ 0 ∧ pre = [Event.openIn true, Event.openOut true, Event.tcgets 0,
          Event.tcsets (some (newtios k w.tty)) env.tcsets]))) := by
  unfold termioInit
  cases hin : env.openIn with
  | some e =>
    obtain ⟨h1, h2, post, h3, h4⟩ := failed_spec env
      { in_ := none, out := t.out, tiosp := some termiosPrivate.zero, baud := t.baud } w
      [Event.openIn false] e
    exact ⟨h1, h2, _, post, h3, h4, Or.inl rfl⟩
  | none =>
    cases hout : env.openOut with
    | some e =>
      obtain ⟨h1, h2, post, h3, h4⟩ := failed_spec env
        { in_ := some ⟨false⟩, out := none, tiosp := some termiosPrivate.zero, baud := t.baud } w
        [Event.openIn true, Event.openOut false] e
      exact ⟨h1, h2, _, post, h3, h4, Or.inr (Or.inl rfl)⟩
    | none =>
      by_cases hget : env.tcgets = 0
      · have hset : env.tcsets ≠ 0 := fun hs => h ⟨hin, hout, hget, hs⟩
        simp only [hget, hset, sysIoctl, fdValid, ioctlTCSETS, Bool.not_false, if_true,
          ne_eq, not_true_eq_false, if_false, not_false_eq_true]
        obtain ⟨h1, h2, post, h3, h4⟩ := failed_spec env
          { in_ := some ⟨false⟩, out := some ⟨false⟩, tiosp := some w.tty,
            baud := (w.tty.Ospeed : Int) } w
          ([Event.openIn true, Event.openOut true] ++ [Event.tcgets 0] ++
            [Event.tcsets (some (newtios k w.tty)) env.tcsets]) (GoError.errno env.tcsets)
        exact ⟨h1, h2, _, post, h3, h4, Or.inr (Or.inr (Or.inr ⟨trivial, rfl⟩))⟩
      · simp only [hget, sysIoctl, fdValid, Bool.not_false, if_true, ne_eq,
          not_false_eq_true]
        obtain ⟨h1, h2, post, h3, h4⟩ := failed_spec env
          { in_ := some ⟨false⟩, out := some ⟨false⟩, tiosp := some termiosPrivate.zero,
            baud := t.baud } w
          ([Event.openIn true, Event.openOut true] ++ [Event.tcgets env.tcgets])
          (GoError.errno env.tcgets)
        exact ⟨h1, h2, _, post, h3, h4, Or.inr (Or.inr (Or.inl rfl))⟩

/-! ## Claims about the raw configuration -/

/-- C1: when both opens and the `TCGETS` query succeed, so that `c = w.tty` is the captured
original, `termioInit` issues one `TCSETS` and the configuration `r` it writes is `c` with
exactly these changes: `Iflag` has `IGNBRK`, `BRKINT`, `PARMRK`, `ISTRIP`, `INLCR`, `IGNCR`,
`ICRNL`, `IXON` cleared, `Oflag` has `OPOST` cleared, `Lflag` has `ECHO`, `ECHONL`, `ICANON`,
`ISIG`, `IEXTEN` cleared, `Cflag` has `PARENB` cleared and its `CSIZE` field equal to `CS8`,
`Cc[VMIN] = 1`, `Cc[VTIME] = 0`; every other flag bit, every other `Cc` entry, the line and
the two speeds are those of `c`. The constants are any for which `CS8` is a value of the
`CSIZE` field, `PARENB` lies outside `CS8`, and `VMIN`, `VTIME` are two slots of `Cc`. -/
theorem termioInit_writes_raw (k : Consts) (env : Env) (t : tScreen) (w : World)
    (hcs : k.CS8 &&& k.CSIZE = k.CS8) (hpar : k.CS8 &&& k.PARENB = 0)
    (hv : k.VMIN ≠ k.VTIME)
    (hin : env.openIn = none) (hout : env.openOut = none) (hget : env.tcgets = 0) :
    ∃ r : termiosPrivate,
      (termioInit k env t w).trace.filter Event.isTcsets
        = [Event.tcsets (some r) env.tcsets] ∧
      (termioInit k env t w).t.tiosp = some w.tty ∧
      (r.Iflag &&& k.IGNBRK = 0 ∧ r.Iflag &&& k.BRKINT = 0 ∧ r.Iflag &&& k.PARMRK = 0 ∧
        r.Iflag &&& k.ISTRIP = 0 ∧ r.Iflag &&& k.INLCR = 0 ∧ r.Iflag &&& k.IGNCR = 0 ∧
        r.Iflag &&& k.ICRNL = 0 ∧ r.Iflag &&& k.IXON = 0) ∧
      (∀ i, (k.IGNBRK ||| k.BRKINT ||| k.PARMRK ||| k.ISTRIP ||| k.INLCR ||| k.IGNCR |||
          k.ICRNL ||| k.IXON).testBit i = false → r.Iflag.testBit i = w.tty.Iflag.testBit i) ∧
      r.Oflag &&& k.OPOST = 0 ∧
      (∀ i, k.OPOST.testBit i = false → r.Oflag.testBit i = w.tty.Oflag.testBit i) ∧
      (r.Lflag &&& k.ECHO = 0 ∧ r.Lflag &&& k.ECHONL = 0 ∧ r.Lflag &&& k.ICANON = 0 ∧
        r.Lflag &&& k.ISIG = 0 ∧ r.Lflag &&& k.IEXTEN = 0) ∧
      (∀ i, (k.ECHO ||| k.ECHONL ||| k.ICANON ||| k.ISIG ||| k.IEXTEN).testBit i = false →
        r.Lflag.testBit i = w.tty.Lflag.testBit i) ∧
      r.Cflag &&& k.PARENB = 0 ∧ r.Cflag &&& k.CSIZE = k.CS8 ∧
      (∀ i, (k.CSIZE ||| k.PARENB).testBit i = false →
        r.Cflag.testBit i = w.tty.Cflag.testBit i) ∧
      r.Cc k.VMIN = 1 ∧ r.Cc k.VTIME = 0 ∧
      (∀ j, j ≠ k.VMIN → j ≠ k.VTIME → r.Cc j = w.tty.Cc j) ∧
      r.Line = w.tty.Line ∧ r.Ispeed = w.tty.Ispeed ∧ r.Ospeed = w.tty.Ospeed := by
  obtain ⟨htr, htp⟩ := termioInit_captured k env t w hin hout hget
  obtain ⟨hI, hO, hL⟩ := newtios_flags k w.tty
  obtain ⟨hC1, hC2, hC3⟩ := newtios_Cflag_spec k w.tty hcs hpar
  obtain ⟨hV1, hV2, hV3⟩ := newtios_Cc_spec k w.tty hv
  refine ⟨newtios k w.tty, htr, htp, hI, ?_, hO, ?_, hL, ?_, hC1, hC2, hC3, hV1, hV2, hV3,
    rfl, rfl, rfl⟩
  · intro i hi
    rw [newtios_Iflag]
    exact bitClear_testBit_of_not _ _ i hi
  · intro i hi
    rw [newtios_Oflag]
    exact bitClear_testBit_of_not _ _ i hi
  · intro i hi
    rw [newtios_Lflag]
    exact bitClear_testBit_of_not _ _ i hi

/-- Witness of C1: the linux constants, every call succeeding, a cooked terminal. -/
theorem termioInit_writes_raw_witness :
    (linux.CS8 &&& linux.CSIZE = linux.CS8 ∧ linux.CS8 &&& linux.PARENB = 0 ∧
      linux.VMIN ≠ linux.VTIME ∧ allOk.openIn = none ∧ allOk.openOut = none ∧
      allOk.tcgets = 0) ∧
    ∃ r : termiosPrivate,
      (termioInit linux allOk fresh ⟨cooked⟩).trace.filter Event.isTcsets
        = [Event.tcsets (some r) 0] ∧
      r.Lflag &&& linux.ICANON = 0 ∧ r.Cflag &&& linux.CSIZE = linux.CS8 ∧
      r.Cc linux.VMIN = 1 ∧ r.Cc linux.VTIME = 0 ∧ r.Ospeed = 15 :=
  ⟨by decide,
    (termioInit_writes_raw linux allOk fresh ⟨cooked⟩ (by decide) (by decide) (by decide)
      rfl rfl rfl).imp fun _ h =>
      ⟨h.1, h.2.2.2.2.2.2.1.2.2.1, h.2.2.2.2.2.2.2.2.2.1, h.2.2.2.2.2.2.2.2.2.2.2.1,
        h.2.2.2.2.2.2.2.2.2.2.2.2.1, h.2.2.2.2.2.2.2.2.2.2.2.2.2.2.2.2⟩⟩

/-- C10: deriving the raw configuration is idempotent: `newtios k (newtios k c)` is
`newtios k c`, for every configuration `c` and every choice of constants. -/
theorem newtios_idempotent (k : Consts) (c : termiosPrivate) :
    newtios k (newtios k c) = newtios k c := by
  cases c with
  | mk i o cf l ln cc isp osp =>
    simp only [newtios, bitClear_idem, bitClear_or_idem, update_update_idem]

/-! ## Claims about `termioInit` -/

/-- A nil return of `termioInit` means that both opens and both ioctls succeeded. -/
theorem termioInit_ret_nil (k : Consts) (env : Env) (t : tScreen) (w : World)
    (h : (termioInit k env t w).ret = some none) :
    env.openIn = none ∧ env.openOut = none ∧ env.tcgets = 0 ∧ env.tcsets = 0 := by
  by_contra hn
  obtain ⟨_, ⟨e, he⟩, _⟩ := termioInit_failure k env t w hn
  rw [he] at h
  cases h

/-- C4: `termioInit` always returns; if it returns an error that is not nil, the
configuration of the device after the call is the one before the call (a failed `TCSETS`
leaves the device as it was); a `TCSETS` appears in the trace only after an open of each
handle and a `TCGETS` that all succeeded; and after a `TCSETS` that succeeded the return
is nil. -/
theorem termioInit_error_leaves_device (k : Consts) (env : Env) (t : tScreen) (w : World) :
    (∃ r, (termioInit k env t w).ret = some r) ∧
    (∀ e, (termioInit k env t w).ret = some (some e) → (termioInit k env t w).world = w) ∧
    (∀ arg errno, Event.tcsets arg errno ∈ (termioInit k env t w).trace →
      ∃ post, (termioInit k env t w).trace =
        [Event.openIn true, Event.openOut true, Event.tcgets 0, Event.tcsets arg errno]
          ++ post) ∧
    (∀ arg, Event.tcsets arg 0 ∈ (termioInit k env t w).trace →
      (termioInit k env t w).ret = some none) := by
  by_cases hall : env.openIn = none ∧ env.openOut = none ∧ env.tcgets = 0 ∧ env.tcsets = 0
  · obtain ⟨hin, hout, hget, hset⟩ := hall
    obtain ⟨_, _, hr, htr⟩ := termioInit_success k env t w hin hout hget hset
    refine ⟨⟨none, hr⟩, ?_, ?_, fun _ _ => hr⟩
    · intro e he
      rw [hr] at he
      cases he
    · intro arg errno hmem
      rw [htr] at hmem ⊢
      have : arg = some (newtios k w.tty) ∧ errno = 0 := by
        split_ifs at hmem <;> simpa using hmem
      rw [this.1, this.2]
      exact ⟨_, rfl⟩
  · obtain ⟨hw, ⟨e, he⟩, pre, post, htr, hpost, hpre⟩ := termioInit_failure k env t w hall
    have key : ∀ arg errno, Event.tcsets arg errno ∈ (termioInit k env t w).trace →
        errno ≠ 0 ∧ pre = [Event.openIn true, Event.openOut true, Event.tcgets 0,
          Event.tcsets arg errno] := by
      intro arg errno hmem
      rw [htr] at hmem
      rcases List.mem_append.1 hmem with hm | hm
      · rcases hpre with hp | hp | hp | ⟨hne, hp⟩
        · rw [hp] at hm; simp at hm
        · rw [hp] at hm; simp at hm
        · rw [hp] at hm; simp at hm
        · rw [hp] at hm
          have : arg = some (newtios k w.tty) ∧ errno = env.tcsets := by simpa using hm
          rw [this.1, this.2]
          exact ⟨hne, hp⟩
      · have := hpost _ hm
        simp [Event.isClose] at this
    refine ⟨⟨some e, he⟩, fun _ _ => hw, ?_, ?_⟩
    · intro arg errno hmem
      refine ⟨post, ?_⟩
      rw [htr, (key arg errno hmem).2]
    · intro arg hmem
      exact absurd rfl (key arg 0 hmem).1

/-- Witness of C4: the `TCSETS` ioctl fails on a cooked terminal, `termioInit` returns its
errno and the terminal is still cooked. -/
theorem termioInit_error_leaves_device_witness :
    (termioInit linux setFails fresh ⟨cooked⟩).ret = some (some (GoError.errno 5)) ∧
    (termioInit linux setFails fresh ⟨cooked⟩).world = ⟨cooked⟩ :=
  ⟨by decide,
    (termioInit_error_leaves_device linux setFails fresh ⟨cooked⟩).2.1 (GoError.errno 5)
      (by decide)⟩

/-- C9: in a run of `termioInit` whose opens and ioctls succeed, `getWinSize` returns
`(ws_col, ws_row, nil)` when the window size query succeeds and `(-1, -1, err)` with an
error that is not nil when it fails; `t.cells.Resize` is called exactly when the query
succeeded and both values are not zero, once, with `(ws_col, ws_row)`; and `termioInit`
returns nil whatever the query gave. -/
theorem termioInit_resize (k : Consts) (env : Env) (t : tScreen) (w : World)
    (hin : env.openIn = none) (hout : env.openOut = none) (hget : env.tcgets = 0)
    (hset : env.tcsets = 0) :
    (env.winsz = 0 → (getWinSize env (termioInit k env t w).t).1
      = (((env.dim 1).val : Int), ((env.dim 0).val : Int), none)) ∧
    (env.winsz ≠ 0 → (getWinSize env (termioInit k env t w).t).1
      = (-1, -1, some (GoError.errno env.winsz))) ∧
    (termioInit k env t w).trace.filter Event.isResize =
      (if env.winsz = 0 ∧ env.dim 1 ≠ 0 ∧ env.dim 0 ≠ 0 then
        [Event.resize ((env.dim 1).val : Int) ((env.dim 0).val : Int)] else []) ∧
    (termioInit k env t w).ret = some none := by
  obtain ⟨ht, _, hr, htr⟩ := termioInit_success k env t w hin hout hget hset
  refine ⟨?_, ?_, ?_, hr⟩
  · intro hw
    simp [getWinSize, ht, fdValid, sysIoctl, hw]
  · intro hw
    simp [getWinSize, ht, fdValid, sysIoctl, hw]
  · rw [htr]
    split_ifs <;> simp [Event.isResize, List.filter]

/-- Witness of C9: an 80 by 24 window. -/
theorem termioInit_resize_witness :
    (allOk.openIn = none ∧ allOk.openOut = none ∧ allOk.tcgets = 0 ∧ allOk.tcsets = 0) ∧
    (termioInit linux allOk fresh ⟨cooked⟩).trace.filter Event.isResize
      = [Event.resize 80 24] :=
  ⟨by decide, (termioInit_resize linux allOk fresh ⟨cooked⟩ rfl rfl rfl rfl).2.2.1⟩

/-- C5, the run that breaks it: both opens succeed, `TCGETS` fails, and `t.in.Close()`
fails. `termioInit` returns the wrapped close error at once; `t.out` was opened and no
`Close` of it is in the trace, the handle is left open. -/
theorem termioInit_leaves_out_open :
    (termioInit linux getFailsCloseInFails fresh ⟨cooked⟩).trace
      = [Event.openIn true, Event.openOut true, Event.tcgets 25, Event.closeIn false] ∧
    (termioInit linux getFailsCloseInFails fresh ⟨cooked⟩).t.out = some ⟨false⟩ ∧
    (termioInit linux getFailsCloseInFails fresh ⟨cooked⟩).ret
      = some (some (GoError.wrapf (GoError.pathError 5)
          "in tScreen_linux.termioInit() t.in.Close()")) := by
  decide

/-! ## Runs of `termioFini` -/

/-- The traces `termioFini` can leave. -/
theorem termioFini_shapes (env : Env) (t : tScreen) (w : World) :
    (env.drained = false ∧ (termioFini env t w).trace = [Event.stop]) ∨
    (env.drained = true ∧
      ((termioFini env t w).trace = [Event.stop, Event.recvIndoneq] ∨
      (∃ b, (termioFini env t w).trace = [Event.stop, Event.recvIndoneq, Event.closeIn b]) ∨
      (∃ e b, (termioFini env t w).trace
        = [Event.stop, Event.recvIndoneq, Event.tcsets t.tiosp e, Event.closeOut b]) ∨
      (∃ e b, (termioFini env t w).trace
        = [Event.stop, Event.recvIndoneq, Event.tcsets t.tiosp e, Event.closeOut true,
            Event.closeIn b]))) := by
  rcases t with ⟨_ | ⟨⟨_ | _⟩⟩, _ | ⟨⟨_ | _⟩⟩, tp, b⟩ <;>
  rcases env with ⟨oi, oo, g, s, wz, dim, _ | ci, _ | co, _ | _⟩ <;>
  simp [termioFini, finiIn, OsFile.Close]

/-! ## Claims about `termioFini` -/

/-- C3: in every trace of `termioFini` the steps come in the order revoke the resize
subscription, receive on `indoneq`, write back the original configuration, close the write
handle, close the read handle, each at most once and nothing else: the revocation is first,
the receive is second once the drain signal is there, and before the receive there is no
configuration write and no `Close`. With the signal delivered, both handles open and the
write handle closing without error, the trace is these five steps. -/
theorem termioFini_order (env : Env) (t : tScreen) (w : World) :
    List.Sublist ((termioFini env t w).trace.map Event.finiRank) [0, 1, 2, 3, 4] ∧
    (termioFini env t w).trace.head? = some Event.stop ∧
    (env.drained = true →
      (termioFini env t w).trace.take 2 = [Event.stop, Event.recvIndoneq]) ∧
    (∀ ev ∈ (termioFini env t w).trace.takeWhile (fun e => decide (e ≠ Event.recvIndoneq)),
      ev.isTcsets = false ∧ ev.isClose = false) ∧
    (env.drained = true → t.out = some ⟨false⟩ → t.in_ = some ⟨false⟩ →
      env.closeOut = none →
      (termioFini env t w).trace.map Event.finiRank = [0, 1, 2, 3, 4]) := by
  refine ⟨?_, ?_, ?_, ?_, ?_⟩
  · rcases termioFini_shapes env t w with ⟨_, h⟩ | ⟨_, h | ⟨b, h⟩ | ⟨e, b, h⟩ | ⟨e, b, h⟩⟩ <;>
      rw [h] <;> simp only [List.map, Event.finiRank] <;> decide
  · rcases termioFini_shapes env t w with ⟨_, h⟩ | ⟨_, h | ⟨b, h⟩ | ⟨e, b, h⟩ | ⟨e, b, h⟩⟩ <;>
      rw [h] <;> rfl
  · intro hd
    rcases termioFini_shapes env t w with ⟨h0, _⟩ | ⟨_, h | ⟨b, h⟩ | ⟨e, b, h⟩ | ⟨e, b, h⟩⟩
    · rw [hd] at h0; cases h0
    all_goals rw [h]; rfl
  · rcases termioFini_shapes env t w with ⟨_, h⟩ | ⟨_, h | ⟨b, h⟩ | ⟨e, b, h⟩ | ⟨e, b, h⟩⟩ <;>
      rw [h] <;> simp [List.takeWhile, Event.isTcsets, Event.isClose]
  · intro hd ho hi hco
    cases hci : env.closeIn <;>
      simp [termioFini, finiIn, OsFile.Close, hd, ho, hi, hco, hci, Event.finiRank]

/-- Witness of C3: teardown of a session that `termioInit` has set up. -/
theorem termioFini_order_witness :
    (termioFini allOk (termioInit linux allOk fresh ⟨cooked⟩).t
      (termioInit linux allOk fresh ⟨cooked⟩).world).trace.map Event.finiRank
      = [0, 1, 2, 3, 4] :=
  (termioFini_order allOk (termioInit linux allOk fresh ⟨cooked⟩).t
    (termioInit linux allOk fresh ⟨cooked⟩).world).2.2.2.2 rfl (by decide) (by decide) rfl

/-- C2: after a `termioInit` that returned nil, a `termioFini` that gets the drain signal
and whose restoring `TCSETS` succeeds returns, and leaves the device with the configuration
it had before `termioInit`, in every field; the stored original `t.tiosp` is that
configuration after `termioInit` and still after `termioFini`. -/
theorem init_fini_round_trip (k : Consts) (env1 env2 : Env) (t : tScreen) (w : World)
    (h1 : (termioInit k env1 t w).ret = some none)
    (hd : env2.drained = true) (hs : env2.tcsets = 0) :
    (termioFini env2 (termioInit k env1 t w).t (termioInit k env1 t w).world).world.tty
      = w.tty ∧
    (termioInit k env1 t w).t.tiosp = some w.tty ∧
    (termioFini env2 (termioInit k env1 t w).t (termioInit k env1 t w).world).t.tiosp
      = some w.tty ∧
    (∃ r, (termioFini env2 (termioInit k env1 t w).t (termioInit k env1 t w).world).ret
      = some r) := by
  obtain ⟨hin, hout, hget, hset⟩ := termioInit_ret_nil k env1 t w h1
  obtain ⟨ht, hw, _, _⟩ := termioInit_success k env1 t w hin hout hget hset
  rw [ht, hw]
  cases hco : env2.closeOut <;> cases hci : env2.closeIn <;>
    simp [termioFini, finiIn, OsFile.Close, ioctlTCSETS, sysIoctl, fdValid, hd, hs, hco, hci]

/-- Witness of C2: a cooked terminal goes raw and comes back cooked. -/
theorem init_fini_round_trip_witness :
    ((termioInit linux allOk fresh ⟨cooked⟩).ret = some none ∧ allOk.drained = true ∧
      allOk.tcsets = 0) ∧
    (termioInit linux allOk fresh ⟨cooked⟩).world.tty ≠ cooked ∧
    (termioFini allOk (termioInit linux allOk fresh ⟨cooked⟩).t
      (termioInit linux allOk fresh ⟨cooked⟩).world).world.tty = cooked :=
  ⟨by decide, by decide,
    (init_fini_round_trip linux allOk allOk fresh ⟨cooked⟩ (by decide) rfl rfl).1⟩

/-- C6, the run that breaks it: on a session with both handles open, the drain signal
received and the restore written, `t.out.Close()` fails. `termioFini` returns the wrapped
error at once: no `Close` of `t.in` is in the trace and the read handle stays open. -/
theorem termioFini_skips_in_close :
    (termioFini closeOutFails (termioInit linux allOk fresh ⟨cooked⟩).t
      (termioInit linux allOk fresh ⟨cooked⟩).world).trace
      = [Event.stop, Event.recvIndoneq, Event.tcsets (some cooked) 0, Event.closeOut false] ∧
    (termioFini closeOutFails (termioInit linux allOk fresh ⟨cooked⟩).t
      (termioInit linux allOk fresh ⟨cooked⟩).world).t.in_ = some ⟨false⟩ ∧
    (termioFini closeOutFails (termioInit linux allOk fresh ⟨cooked⟩).t
      (termioInit linux allOk fresh ⟨cooked⟩).world).ret
      = some (some (GoError.wrapf (GoError.pathError 5)
          "in tScreen_linux.termioFini() t.out.Close()")) := by
  decide

/-- C7 as stated fails: after `termioInit` and a first `termioFini` that returned nil, the
second `termioFini` issues the `TCSETS` ioctl again, on the closed write handle, and calls
`Close` on it again. -/
theorem termioFini_second_call_touches_closed :
    (termioFini allOk (termioInit linux allOk fresh ⟨cooked⟩).t
      (termioInit linux allOk fresh ⟨cooked⟩).world).ret = some none ∧
    Event.tcsets (some cooked) EBADF ∈
      (termioFini allOk
        (termioFini allOk (termioInit linux allOk fresh ⟨cooked⟩).t
          (termioInit linux allOk fresh ⟨cooked⟩).world).t
        (termioFini allOk (termioInit linux allOk fresh ⟨cooked⟩).t
          (termioInit linux allOk fresh ⟨cooked⟩).world).world).trace ∧
    Event.closeOut false ∈
      (termioFini allOk
        (termioFini allOk (termioInit linux allOk fresh ⟨cooked⟩).t
          (termioInit linux allOk fresh ⟨cooked⟩).world).t
        (termioFini allOk (termioInit linux allOk fresh ⟨cooked⟩).t
          (termioInit linux allOk fresh ⟨cooked⟩).world).world).trace := by
  decide

/-- C7 amended: after a first `termioFini` that returned nil, a second `termioFini` on the
same session that gets past the receive returns and leaves the device as it is. When the
session has a write handle it repeats the `TCSETS` ioctl and the `Close` on that closed
handle, both fail, the read handle is not touched and the `already closed` error of
`t.out.Close()` comes back wrapped; with only a read handle its `already closed` error
comes back wrapped; with no handle the call does nothing and returns nil. -/
theorem termioFini_twice (env1 env2 : Env) (t : tScreen) (w : World)
    (h1 : (termioFini env1 t w).ret = some none) (hd : env2.drained = true) :
    (termioFini env2 (termioFini env1 t w).t (termioFini env1 t w).world).world
      = (termioFini env1 t w).world ∧
    (∃ r, (termioFini env2 (termioFini env1 t w).t (termioFini env1 t w).world).ret
      = some r) ∧
    (t.out ≠ none →
      (termioFini env2 (termioFini env1 t w).t (termioFini env1 t w).world).trace
        = [Event.stop, Event.recvIndoneq, Event.tcsets t.tiosp EBADF, Event.closeOut false] ∧
      (termioFini env2 (termioFini env1 t w).t (termioFini env1 t w).world).ret
        = some (some (GoError.wrapf GoError.errClosed
            "in tScreen_linux.termioFini() t.out.Close()"))) ∧
    (t.out = none → t.in_ ≠ none →
      (termioFini env2 (termioFini env1 t w).t (termioFini env1 t w).world).trace
        = [Event.stop, Event.recvIndoneq, Event.closeIn false] ∧
      (termioFini env2 (termioFini env1 t w).t (termioFini env1 t w).world).ret
        = some (some (GoError.wrapf GoError.errClosed
            "in tScreen_linux.termioFini() t.in.Close()"))) ∧
    (t.out = none → t.in_ = none →
      (termioFini env2 (termioFini env1 t w).t (termioFini env1 t w).world).trace
        = [Event.stop, Event.recvIndoneq] ∧
      (termioFini env2 (termioFini env1 t w).t (termioFini env1 t w).world).ret
        = some none) := by
  rcases t with ⟨_ | ⟨⟨_ | _⟩⟩, _ | ⟨⟨_ | _⟩⟩, _ | tp, b⟩ <;>
  rcases env1 with ⟨oi, oo, g, s, wz, dim, _ | ci, _ | co, _ | _⟩ <;>
  simp [termioFini, finiIn, OsFile.Close] at h1 <;>
  simp [termioFini, finiIn, OsFile.Close, ioctlTCSETS, sysIoctl, fdValid, EBADF, hd]

/-- Witness of C7 amended: the second teardown of a session that was set up and torn
down once. -/
theorem termioFini_twice_witness :
    ((termioFini allOk (termioInit linux allOk fresh ⟨cooked⟩).t
        (termioInit linux allOk fresh ⟨cooked⟩).world).ret = some none ∧
      allOk.drained = true) ∧
    (termioFini allOk
      (termioFini allOk (termioInit linux allOk fresh ⟨cooked⟩).t
        (termioInit linux allOk fresh ⟨cooked⟩).world).t
      (termioFini allOk (termioInit linux allOk fresh ⟨cooked⟩).t
        (termioInit linux allOk fresh ⟨cooked⟩).world).world).ret
      = some (some (GoError.wrapf GoError.errClosed
          "in tScreen_linux.termioFini() t.out.Close()")) :=
  ⟨by decide,
    ((termioFini_twice allOk allOk (termioInit linux allOk fresh ⟨cooked⟩).t
      (termioInit linux allOk fresh ⟨cooked⟩).world (by decide) rfl).2.2.1
        (by decide)).2⟩

/-- C8 as stated fails: the restoring `TCSETS` fails, the device stays raw, both `Close`
calls succeed, and `termioFini` returns nil. -/
theorem termioFini_hides_restore_failure :
    (termioFini setFails (termioInit linux allOk fresh ⟨cooked⟩).t
      (termioInit linux allOk fresh ⟨cooked⟩).world).trace
      = [Event.stop, Event.recvIndoneq, Event.tcsets (some cooked) 5, Event.closeOut true,
          Event.closeIn true] ∧
    (termioFini setFails (termioInit linux allOk fresh ⟨cooked⟩).t
      (termioInit linux allOk fresh ⟨cooked⟩).world).world.tty = newtios linux cooked ∧
    (termioFini setFails (termioInit linux allOk fresh ⟨cooked⟩).t
      (termioInit linux allOk fresh ⟨cooked⟩).world).ret = some none := by
  decide

/-- C8 amended: on a session with both handles open and the drain signal delivered,
`termioFini` returns, and the error is nil exactly when both `Close` calls succeed: a
failed `t.out.Close()` comes back wrapped at once, otherwise a failed `t.in.Close()` comes
back wrapped. The result of the restoring `TCSETS` is dropped: whatever errno it gives,
the returned error is the same. -/
theorem termioFini_error (env : Env) (t : tScreen) (w : World)
    (hd : env.drained = true) (ho : t.out = some ⟨false⟩) (hi : t.in_ = some ⟨false⟩) :
    (∃ r, (termioFini env t w).ret = some r) ∧
    ((termioFini env t w).ret = some none ↔ env.closeOut = none ∧ env.closeIn = none) ∧
    (∀ e, env.closeOut = some e → (termioFini env t w).ret
      = some (some (GoError.wrapf e "in tScreen_linux.termioFini() t.out.Close()"))) ∧
    (∀ e, env.closeOut = none → env.closeIn = some e → (termioFini env t w).ret
      = some (some (GoError.wrapf e "in tScreen_linux.termioFini() t.in.Close()"))) ∧
    (∀ n, (termioFini { env with tcsets := n } t w).ret = (termioFini env t w).ret) := by
  cases hco : env.closeOut <;> cases hci : env.closeIn <;>
    simp [termioFini, finiIn, OsFile.Close, hd, ho, hi, hco, hci]

/-- Witness of C8 amended: closing the write handle fails. -/
theorem termioFini_error_witness :
    (closeOutFails.drained = true ∧
      (termioInit linux allOk fresh ⟨cooked⟩).t.out = some ⟨false⟩ ∧
      (termioInit linux allOk fresh ⟨cooked⟩).t.in_ = some ⟨false⟩) ∧
    (termioFini closeOutFails (termioInit linux allOk fresh ⟨cooked⟩).t
      (termioInit linux allOk fresh ⟨cooked⟩).world).ret
      = some (some (GoError.wrapf (GoError.pathError 5)
          "in tScreen_linux.termioFini() t.out.Close()")) :=
  ⟨by decide,
    (termioFini_error closeOutFails (termioInit linux allOk fresh ⟨cooked⟩).t
      (termioInit linux allOk fresh ⟨cooked⟩).world rfl (by decide) (by decide)).2.2.1
        (GoError.pathError 5) rfl⟩

end Tcell
